import Mathlib

/-!
Verification of the gameplay core of `galaga_shooter.py` (a Galaga-style
vertical shooter).  The definitions below are a shallow embedding of the
simulation layer of the source: the player state machine (`Player.hit`,
`Player.get_captured`, `Player.rescue`, `Player.shoot`, `Player.update`),
the enemy data model and dive-path generation (`Enemy.start_dive`), the
per-frame collision-resolution passes of `run_game` (`bulletEnemyPass`,
`bodyCollisionPass`), the grid formation generator and the dive scheduler.

Machine reals (Python floats in the Bezier sampling) are modelled with `ℚ`;
the properties proved about the dive path only concern the exact endpoints
`t = 0` and `t = 1`, at which IEEE float evaluation agrees with the exact
rational value.  Randomized quantities (capture rolls, sampled enemy
subsets, dive-target offsets, Bezier control offsets) are passed as
explicit parameters, as is the millisecond clock.
-/

namespace Galaga

/-- Pixel rectangle as in `pygame.Rect`: `x`,`y` is the top-left corner,
`w`,`h` the extents. -/
structure Rect where
  x : Int
  y : Int
  w : Int
  h : Int
deriving Repr, DecidableEq

def WINDOW_WIDTH : Int := 600
def WINDOW_HEIGHT : Int := 800

/-- `pygame.Rect.colliderect`: strict overlap on both axes. -/
def colliderect (a b : Rect) : Bool :=
  decide (a.x < b.x + b.w) && decide (b.x < a.x + a.w) &&
  decide (a.y < b.y + b.h) && decide (b.y < a.y + a.h)

/-- `rect.centerx` of pygame (widths here are nonnegative, so the rounding
convention of the halving is irrelevant; Python floors). -/
def Rect.centerx (r : Rect) : Int := r.x + r.w.fdiv 2

/-- Assignment `rect.centerx = cx` of pygame. -/
def Rect.setCenterx (r : Rect) (cx : Int) : Rect := { r with x := cx - r.w.fdiv 2 }

/-- Assignment `rect.bottom = v` of pygame. -/
def Rect.setBottom (r : Rect) (v : Int) : Rect := { r with y := v - r.h }

/-- Simulation-relevant state of the `Player` sprite.  Purely visual fields
of the source (`image`, `engine_anim_counter`) are not represented; every
field read or written by the verified operations is. -/
structure Player where
  rect : Rect
  lives : Int
  combined_ships : Int
  invincible : Bool
  invincible_timer : Int
  flash_counter : Int
  is_captured : Bool
  captured_by : Option Nat
  has_double_fire : Bool
  last_shot : Int
deriving Repr, DecidableEq

def max_combined_ships : Int := 2
def invincible_duration : Int := 2000
def player_shoot_delay : Int := 250

/-- `Player.__init__`: initial player state (clocked fields take the
creation time `now`). -/
def Player.init (now : Int) : Player :=
  { rect := (((Rect.mk 0 0 30 40).setCenterx (WINDOW_WIDTH.fdiv 2)).setBottom (WINDOW_HEIGHT - 20))
    lives := 3
    combined_ships := 1
    invincible := false
    invincible_timer := 0
    flash_counter := 0
    is_captured := false
    captured_by := none
    has_double_fire := false
    last_shot := now }

/-- `Player.hit`: guarded no-op when invincible or captured; loses a
combined ship first (keeping double fire, shrinking the hitbox, granting
invincibility), otherwise decrements `lives` and grants invincibility only
when lives remain positive. -/
def Player.hit (p : Player) (now : Int) : Player :=
  if !p.invincible && !p.is_captured then
    if p.combined_ships > 1 then
      let p1 := { p with combined_ships := p.combined_ships - 1, has_double_fire := true }
      let p2 :=
        if p1.rect.w > 30 then
          { p1 with rect :=
              (((Rect.mk 0 0 30 40).setCenterx p1.rect.centerx).setBottom (WINDOW_HEIGHT - 20)) }
        else p1
      { p2 with invincible := true, invincible_timer := now, flash_counter := 0 }
    else
      let p1 := { p with lives := p.lives - 1 }
      if p1.lives > 0 then
        { p1 with invincible := true, invincible_timer := now, flash_counter := 0 }
      else p1
  else p

/-- `Player.get_captured`: guarded no-op unless the player is free,
not invincible, and has fewer than the maximum combined ships; on success
links the captor (by registry index), marks the player captured and
decrements `lives`. -/
def Player.get_captured (p : Player) (captor : Nat) : Player :=
  if !p.invincible && !p.is_captured then
    if p.combined_ships < max_combined_ships then
      { p with is_captured := true, captured_by := some captor, lives := p.lives - 1 }
    else p
  else p

/-- `Player.rescue`: clears the capture link, combines ships when below the
maximum (widening the hitbox at 2), unconditionally grants double fire and
invincibility. -/
def Player.rescue (p : Player) (now : Int) : Player :=
  let p1 := { p with is_captured := false, captured_by := none }
  let p2 :=
    if p1.combined_ships < max_combined_ships then
      let pa := { p1 with combined_ships := p1.combined_ships + 1 }
      if pa.combined_ships = 2 then
        { pa with rect :=
            (((Rect.mk 0 0 50 40).setCenterx pa.rect.centerx).setBottom (WINDOW_HEIGHT - 20)) }
      else pa
    else p1
  { p2 with has_double_fire := true, invincible := true, invincible_timer := now,
            flash_counter := 0 }

/-- `Player.shoot`: no-op while captured; rate-limited by the shot
cooldown; fires 3 bullets when combined, 2 with double fire, else 1.
Returns the updated player and the spawn positions of the new bullets. -/
def Player.shoot (p : Player) (now : Int) : Player × List (Int × Int) :=
  if p.is_captured then (p, [])
  else if now - p.last_shot > player_shoot_delay then
    let p1 := { p with last_shot := now }
    let cx := p.rect.centerx
    let top := p.rect.y
    if p.combined_ships = 2 then
      (p1, [(cx, top), (cx - 20, top), (cx + 20, top)])
    else if p.has_double_fire then
      (p1, [(cx, top), (cx - 20, top)])
    else
      (p1, [(cx, top)])
  else (p, [])

/-- `Player.update` (simulation part): invincibility expiry and flash
counting, then keyboard movement, which is skipped entirely while
captured.  `left`/`right` are the polled movement intents. -/
def Player.update (p : Player) (now : Int) (left right : Bool) : Player :=
  let p1 :=
    if p.invincible then
      let pa :=
        if now - p.invincible_timer > invincible_duration then { p with invincible := false }
        else p
      { pa with flash_counter := pa.flash_counter + 1 }
    else p
  if p1.is_captured then p1
  else
    let p2 :=
      if left && decide (p1.rect.x > 0) then
        { p1 with rect := { p1.rect with x := p1.rect.x - 8 } }
      else p1
    if right && decide (p2.rect.x + p2.rect.w < WINDOW_WIDTH) then
      { p2 with rect := { p2.rect with x := p2.rect.x + 8 } }
    else p2

/-- Claim C3: `get_captured(captor)` leaves the entire player state
unchanged whenever the player is already captured, invincible, or has two
combined ships; otherwise (on the data-model domain `combinedShips ∈
{1,2}`) it sets `is_captured`, links `captured_by` to the captor, and
decrements `lives` by exactly one, touching nothing else. -/
theorem C3_get_captured_spec (p : Player) (c : Nat)
    (hdom : p.combined_ships = 1 ∨ p.combined_ships = 2) :
    ((p.is_captured = true ∨ p.invincible = true ∨ p.combined_ships = 2) →
      p.get_captured c = p) ∧
    (p.is_captured = false → p.invincible = false → p.combined_ships ≠ 2 →
      p.get_captured c =
        { p with is_captured := true, captured_by := some c, lives := p.lives - 1 }) := by
  constructor
  · intro h
    rcases h with h | h | h
    · simp [Player.get_captured, h]
    · simp [Player.get_captured, h]
    · unfold Player.get_captured
      by_cases hi : p.invincible <;> by_cases hc : p.is_captured <;>
        simp [hi, hc, h, max_combined_ships]
  · intro hc hi h2
    have h1 : p.combined_ships = 1 := by
      rcases hdom with h | h
      · exact h
      · exact absurd h h2
    simp [Player.get_captured, hc, hi, h1, max_combined_ships]

/-- Witness for C3: a free single-ship player is captured by enemy 7 and
loses one life; the same call on a two-ship player changes nothing. -/
theorem C3_get_captured_spec_witness :
    ((Player.init 0).combined_ships = 1 ∨ (Player.init 0).combined_ships = 2) ∧
    ((Player.init 0).get_captured 7 =
      { Player.init 0 with is_captured := true, captured_by := some 7,
                           lives := (Player.init 0).lives - 1 }) := by
  refine ⟨Or.inl (by decide), ?_⟩
  exact (C3_get_captured_spec (Player.init 0) 7 (Or.inl (by decide))).2 (by decide) (by decide)
    (by decide)

/-- Claim C4: from a two-ship, free, non-invincible state, `hit()` drops to
one combined ship, makes double fire permanent, enters invincibility and
leaves `lives` unchanged. -/
theorem C4_hit_combined_spec (p : Player) (now : Int)
    (h2 : p.combined_ships = 2) (hi : p.invincible = false) (hc : p.is_captured = false) :
    (p.hit now).combined_ships = 1 ∧ (p.hit now).has_double_fire = true ∧
    (p.hit now).invincible = true ∧ (p.hit now).lives = p.lives := by
  unfold Player.hit
  by_cases hw : (30 : Int) < p.rect.w <;> simp [hi, hc, h2, hw]

/-- Witness for C4: hitting a freshly rescued-and-free two-ship player. -/
theorem C4_hit_combined_spec_witness :
    (let p : Player := { Player.init 0 with combined_ships := 2, invincible := false };
     (p.hit 5).combined_ships = 1 ∧ (p.hit 5).has_double_fire = true ∧
     (p.hit 5).invincible = true ∧ (p.hit 5).lives = p.lives) := by
  exact C4_hit_combined_spec { Player.init 0 with combined_ships := 2, invincible := false } 5
    (by decide) (by decide) (by decide)

/-- Claim C5: after `rescue()` the player is free (`is_captured` false,
`captured_by` cleared), has double fire, is invincible, and
`combined_ships` grows by exactly one unless it was already 2, in which
case it is unchanged (stated on the data-model domain `combinedShips ≤ 2`). -/
theorem C5_rescue_spec (p : Player) (now : Int) (hdom : p.combined_ships ≤ 2) :
    (p.rescue now).is_captured = false ∧ (p.rescue now).captured_by = none ∧
    (p.rescue now).has_double_fire = true ∧ (p.rescue now).invincible = true ∧
    (p.combined_ships = 2 → (p.rescue now).combined_ships = p.combined_ships) ∧
    (p.combined_ships ≠ 2 → (p.rescue now).combined_ships = p.combined_ships + 1) := by
  unfold Player.rescue
  by_cases h2 : p.combined_ships = 2
  · simp [h2, max_combined_ships]
  · have hlt : p.combined_ships < max_combined_ships := by
      unfold max_combined_ships
      omega
    by_cases hs : p.combined_ships + 1 = 2 <;> simp [hlt, hs, h2]

/-- Witness for C5: rescuing a captured single-ship player combines the
ships and restores freedom, double fire and invincibility. -/
theorem C5_rescue_spec_witness :
    (let p : Player := { Player.init 0 with is_captured := true, captured_by := some 3 };
     (p.rescue 9).is_captured = false ∧ (p.rescue 9).captured_by = none ∧
     (p.rescue 9).has_double_fire = true ∧ (p.rescue 9).invincible = true ∧
     (p.combined_ships = 2 → (p.rescue 9).combined_ships = p.combined_ships) ∧
     (p.combined_ships ≠ 2 → (p.rescue 9).combined_ships = p.combined_ships + 1)) := by
  exact C5_rescue_spec { Player.init 0 with is_captured := true, captured_by := some 3 } 9
    (by decide)

/-- The three enemy kinds of `Enemy.__init__`. -/
inductive EnemyType where
  | small
  | medium
  | large
deriving Repr, DecidableEq

/-- Kind-derived point value (100/200/400). -/
def EnemyType.pointsOf : EnemyType → Int
  | .small => 100
  | .medium => 200
  | .large => 400

/-- Kind-derived initial health (1/2/3). -/
def EnemyType.healthOf : EnemyType → Int
  | .small => 1
  | .medium => 2
  | .large => 3

/-- Kind-derived sprite extent (the source surfaces are square: 20/30/40). -/
def EnemyType.sizeOf : EnemyType → Int
  | .small => 20
  | .medium => 30
  | .large => 40

/-- Only the large (boss) kind can capture the player. -/
def EnemyType.canCaptureOf : EnemyType → Bool
  | .small => false
  | .medium => false
  | .large => true

/-- Simulation-relevant state of the `Enemy` sprite.  The randomized sway
parameters, shot timers and animation counters of the source are not read
by any verified operation and are not represented. -/
structure Enemy where
  enemy_type : EnemyType
  rect : Rect
  base_x : Int
  health : Int
  points : Int
  can_capture : Bool
  is_diving : Bool
  dive_path : List (Int × Int)
  dive_index : Nat
  original_pos : Int × Int
  has_captured_player : Bool
deriving Repr, DecidableEq

/-- `Enemy.__init__(x, y, enemy_type)`: the rect is placed at `(x, y)` with
the kind-derived extent, and the kind-derived combat constants are copied
into the instance. -/
def mkEnemy (x y : Int) (t : EnemyType) : Enemy :=
  { enemy_type := t
    rect := Rect.mk x y t.sizeOf t.sizeOf
    base_x := x
    health := t.healthOf
    points := t.pointsOf
    can_capture := t.canCaptureOf
    is_diving := false
    dive_path := []
    dive_index := 0
    original_pos := (x, y)
    has_captured_player := false }

/-- Out-of-range placeholder for positional list access (mirrors that the
source never indexes out of range). -/
def dfltEnemy : Enemy := mkEnemy 0 0 .small

/-- Python `int()` on a rational: truncation toward zero. -/
def pytrunc (q : ℚ) : Int := q.num.tdiv (q.den : Int)

theorem pytrunc_intCast (n : Int) : pytrunc (n : ℚ) = n := by
  simp [pytrunc, Rat.num_intCast, Rat.den_intCast, Int.tdiv_one]

/-- `Enemy.start_dive(target_x, target_y)`: no-op while carrying the
captured player; otherwise samples a quadratic Bezier curve from the
current position through a randomized control point at 31 parameter values
`t = i/30`, `i = 0..30`, and enters the diving state.  `ctrl_off` is the
`random.randint(-100, 100)` horizontal control offset; the float curve is
modelled exactly over `ℚ`. -/
def Enemy.start_dive (e : Enemy) (target_x target_y ctrl_off : Int) : Enemy :=
  if e.has_captured_player then e
  else
    let start_x := e.rect.x
    let start_y := e.rect.y
    let control_x := start_x + ctrl_off
    let control_y := (start_y + target_y).fdiv 2 - 50
    let steps : Nat := 30
    let path := (List.range (steps + 1)).map (fun (i : ℕ) =>
      let t : ℚ := (i : ℚ) / (steps : ℚ)
      let x : ℚ := (1 - t) ^ 2 * (start_x : ℚ) + 2 * (1 - t) * t * (control_x : ℚ) +
        t ^ 2 * (target_x : ℚ)
      let y : ℚ := (1 - t) ^ 2 * (start_y : ℚ) + 2 * (1 - t) * t * (control_y : ℚ) +
        t ^ 2 * (target_y : ℚ)
      (pytrunc x, pytrunc y))
    { e with is_diving := true, dive_index := 0, original_pos := (e.rect.x, e.rect.y),
             dive_path := path }

/-- Claim C8: for an enemy at `(100, 50)` not carrying the captured
player, `start_dive(120, 850)` yields a dive path of exactly 31 points
starting at `(100, 50)` and ending at `(120, 850)`, for every value of the
randomized Bezier control offset. -/
theorem C8_start_dive_endpoints (d : Int) :
    ((mkEnemy 100 50 .large).start_dive 120 850 d).dive_path.length = 31 ∧
    ((mkEnemy 100 50 .large).start_dive 120 850 d).dive_path.head? = some (100, 50) ∧
    ((mkEnemy 100 50 .large).start_dive 120 850 d).dive_path.getLast? = some (120, 850) := by
  have hpath : ((mkEnemy 100 50 .large).start_dive 120 850 d).dive_path =
      (List.range 31).map (fun (i : ℕ) =>
        (pytrunc ((1 - (i : ℚ) / 30) ^ 2 * ((100 : Int) : ℚ) +
            2 * (1 - (i : ℚ) / 30) * ((i : ℚ) / 30) * ((100 + d : Int) : ℚ) +
            ((i : ℚ) / 30) ^ 2 * ((120 : Int) : ℚ)),
         pytrunc ((1 - (i : ℚ) / 30) ^ 2 * ((50 : Int) : ℚ) +
            2 * (1 - (i : ℚ) / 30) * ((i : ℚ) / 30) * ((400 : Int) : ℚ) +
            ((i : ℚ) / 30) ^ 2 * ((850 : Int) : ℚ)))) := by
    simp [Enemy.start_dive, mkEnemy, EnemyType.sizeOf]
  refine ⟨?_, ?_, ?_⟩
  · rw [hpath]
    simp
  · rw [hpath, List.range_succ_eq_map]
    simp only [List.map_cons, List.head?_cons, Nat.cast_zero]
    norm_num
    all_goals decide
  · rw [hpath, List.range_succ, List.map_append]
    simp only [List.map_cons, List.map_nil, List.getLast?_concat]
    norm_num
    all_goals decide

/-- `create_enemies_formation("grid")`: clears the existing enemy group
(`prev` is discarded) and spawns a 5×2 row-major lattice with 80×60
spacing from origin `(100, 50)`; the kind of each cell is randomized
(`kind` is the sampled assignment). -/
def create_enemies_formation_grid (kind : Nat → Nat → EnemyType) (prev : List Enemy) :
    List Enemy :=
  (List.range 2).flatMap (fun (row : ℕ) =>
    (List.range 5).map (fun (col : ℕ) =>
      mkEnemy ((col : Int) * 80 + 100) ((row : Int) * 60 + 50) (kind row col)))

/-- Claim C9: the grid formation spawns exactly 10 enemies, one at each
coordinate `(100 + 80c, 50 + 60r)` for `c ∈ {0..4}`, `r ∈ {0,1}`, for every
randomized kind assignment, with no previously existing enemies
remaining. -/
theorem C9_grid_positions (kind : Nat → Nat → EnemyType) (prev : List Enemy) :
    (create_enemies_formation_grid kind prev).length = 10 ∧
    (create_enemies_formation_grid kind prev).map (fun e => (e.rect.x, e.rect.y)) =
      [(100, 50), (180, 50), (260, 50), (340, 50), (420, 50),
       (100, 110), (180, 110), (260, 110), (340, 110), (420, 110)] := by
  constructor <;>
    simp [create_enemies_formation_grid, mkEnemy,
      show List.range 2 = [0, 1] from rfl, show List.range 5 = [0, 1, 2, 3, 4] from rfl]

/-- State threaded through the enemy-body collision loop of `run_game`
(player, enemy registry by index, indices of enemies destroyed this pass,
and the respawn flag/timer of the session loop). -/
structure BodyState where
  p : Player
  es : List Enemy
  killed : List Nat
  respawning : Bool
  respawn_timer : Int
deriving Repr, DecidableEq

/-- One iteration of the `for enemy in enemy_collisions` loop of
`run_game`: a boss that does not yet carry the captured ship, facing a
sub-maximal player, captures on a successful 30% roll (the enemy flag is
set regardless of whether `get_captured` changed anything, and the session
loop re-centers the player and arms the respawn timer when lives remain);
every other collision is destructive: `player.hit()` and the enemy dies. -/
def bodyCollisionStep (now : Int) (roll : Bool) (st : BodyState) (i : Nat) : BodyState :=
  let e := st.es.getD i dfltEnemy
  if e.can_capture && !e.has_captured_player &&
      decide (st.p.combined_ships < max_combined_ships) && roll then
    let p1 := st.p.get_captured i
    let es1 := st.es.set i { e with has_captured_player := true }
    if p1.lives > 0 then
      { st with
        p := { p1 with rect :=
                ((p1.rect.setCenterx (WINDOW_WIDTH.fdiv 2)).setBottom (WINDOW_HEIGHT - 20)) }
        es := es1
        respawning := true
        respawn_timer := now }
    else { st with p := p1, es := es1 }
  else
    { st with p := st.p.hit now, killed := st.killed ++ [i] }

/-- The enemy-body × player collision rule of `run_game`: evaluated only
when the player is free and not invincible (checked once, before the
loop); the overlap set is the snapshot taken by `spritecollide`; `roll i`
is the `random.random() < 0.3` capture roll for enemy `i`.  Returns the
player, the surviving enemy list and the respawn flag. -/
def bodyCollisionPass (now : Int) (roll : Nat → Bool) (p : Player) (es : List Enemy) :
    Player × List Enemy × Bool :=
  if !p.is_captured && !p.invincible then
    let colliding := (List.range es.length).filter
      (fun i => colliderect p.rect ((es.getD i dfltEnemy).rect))
    let st := colliding.foldl (fun st i => bodyCollisionStep now (roll i) st i)
      (BodyState.mk p es [] false 0)
    (st.p, (st.es.enum.filter (fun q => !(decide (q.1 ∈ st.killed)))).map Prod.snd,
      st.respawning)
  else (p, es, false)

/-- A free, single-ship, three-life player centered at the respawn
position. -/
def pFree : Player := Player.init 0

/-- Two boss enemies whose rects overlap `pFree.rect`. -/
def bossPair : List Enemy := [mkEnemy 280 730 .large, mkEnemy 300 740 .large]

/-- Claim C1 (code bug witness): in a single enemy-body collision pass, a
free single-ship player overlapping two bosses, with both 30% capture
rolls succeeding, leaves BOTH live bosses with `has_captured_player =
true`: the second boss sets its flag although `get_captured` was a guarded
no-op (the player was already captured), so the live population carries
two captors, violating the single-captor invariant of the spec. -/
theorem C1_two_captors_eval :
    ((bodyCollisionPass 0 (fun _ => true) pFree bossPair).2.1.countP
        (fun e => e.has_captured_player)) = 2 ∧
    (bodyCollisionPass 0 (fun _ => true) pFree bossPair).2.1.length = 2 ∧
    (bodyCollisionPass 0 (fun _ => true) pFree bossPair).1.is_captured = true := by
  decide

/-- Two small (non-capturing) enemies whose rects overlap `pLastLife.rect`. -/
def smallPair : List Enemy := [mkEnemy 285 740 .small, mkEnemy 290 745 .small]

/-- A free, single-ship player on its last life. -/
def pLastLife : Player := { Player.init 0 with lives := 1 }

/-- Claim C2 counterexample: a frame's collision resolution can drive
`lives` negative.  A player on its last life overlapping two destructive
enemies takes `hit()` twice in one pass: the first drops `lives` to 0 and
grants no invincibility (it is only granted when lives stay positive), so
the second decrements again, to -1. -/
theorem C2_negative_lives_counterexample :
    (bodyCollisionPass 0 (fun _ => false) pLastLife smallPair).1.lives = -1 := by
  decide

/-- Claim C2 (amended): from any state at a frame boundary of a continuing
session (the loop only continues with `lives ≥ 1`), a single `hit()` and
any `get_captured` keep `lives ≥ 0`; only multiple hits within one frame
after lives reaches 0 can go negative. -/
theorem C2_single_hit_nonneg (p : Player) (now : Int) (c : Nat) (h : 1 ≤ p.lives) :
    0 ≤ (p.hit now).lives ∧ 0 ≤ (p.get_captured c).lives := by
  unfold Player.hit Player.get_captured
  constructor
  · by_cases hi : p.invincible <;> by_cases hc : p.is_captured <;>
      by_cases h2 : p.combined_ships > 1 <;> by_cases hw : (30 : Int) < p.rect.w <;>
      by_cases hl : p.lives - 1 > 0 <;>
      simp [hi, hc, h2, hw, hl] <;> omega
  · by_cases hi : p.invincible <;> by_cases hc : p.is_captured <;>
      by_cases h2 : p.combined_ships < max_combined_ships <;>
      simp [hi, hc, h2] <;> omega

/-- Witness for the amended C2: one hit and one capture attempt from a
fresh three-life player both leave `lives` nonnegative. -/
theorem C2_single_hit_nonneg_witness :
    1 ≤ (Player.init 0).lives ∧
    (0 ≤ ((Player.init 0).hit 4).lives ∧ 0 ≤ ((Player.init 0).get_captured 2).lives) :=
  ⟨by decide, C2_single_hit_nonneg (Player.init 0) 4 2 (by decide)⟩

/-- State threaded through the player-bullet × enemy resolution of
`run_game` (player, enemy registry by index with mutating health, indices
of killed enemies, score). -/
structure PassState where
  p : Player
  es : List Enemy
  killed : List Nat
  score : Int
deriving Repr, DecidableEq

/-- Body of the inner `for enemy in hit_enemies` loop of `run_game`:
decrement the enemy's health; on reaching 0 or below, rescue the player if
this enemy carried the captured ship, award its points and kill it.  (As
in the source, an enemy already killed by an earlier bullet of the same
pass is processed again if another bullet overlapped it.) -/
def killStep (now : Int) (st : PassState) (i : Nat) : PassState :=
  let e := st.es.getD i dfltEnemy
  let e2 := { e with health := e.health - 1 }
  let es2 := st.es.set i e2
  if e2.health ≤ 0 then
    { p := if e2.has_captured_player then st.p.rescue now else st.p
      es := es2
      killed := st.killed ++ [i]
      score := st.score + e2.points }
  else { st with es := es2 }

/-- Sequential processing of the snapshot of overlapping (bullet, enemy)
pairs (enemy side, by registry index). -/
def procPairs (now : Int) : List Nat → PassState → PassState
  | [], st => st
  | i :: rest, st => procPairs now rest (killStep now st i)

/-- The player-bullet × enemy collision rule of `run_game`:
`pygame.sprite.groupcollide(bullets, enemies, True, False)` computes the
overlap dictionary on the pre-pass snapshot and removes every bullet that
overlapped at least one enemy; the loop then processes each bullet's
overlapping enemies in order.  Returns the surviving bullets, the player,
the surviving enemies and the score. -/
def bulletEnemyPass (now : Int) (bullets : List Rect) (p : Player) (es : List Enemy)
    (score : Int) : List Rect × Player × List Enemy × Int :=
  let pairs := bullets.flatMap (fun b =>
    (List.range es.length).filter (fun i => colliderect b ((es.getD i dfltEnemy).rect)))
  let st := procPairs now pairs (PassState.mk p es [] score)
  let bullets2 := bullets.filter (fun b => !(es.any (fun e => colliderect b e.rect)))
  (bullets2, st.p, (st.es.enum.filter (fun q => !(decide (q.1 ∈ st.killed)))).map Prod.snd,
    st.score)

theorem enumFrom_filter_map_eq_filter {α : Type} (d : α) (P : α → Bool) :
    ∀ (l : List α) (n : Nat) (keep : Nat → Bool),
      (∀ i, i < l.length → keep (n + i) = P (l.getD i d)) →
      ((List.enumFrom n l).filter (fun q => keep q.1)).map Prod.snd = l.filter P := by
  intro l
  induction l with
  | nil =>
    intro n keep _
    simp
  | cons a t ih =>
    intro n keep h
    have h0 : keep n = P a := by simpa using h 0 (by simp)
    have htail : ∀ i, i < t.length → keep (n + 1 + i) = P (t.getD i d) := by
      intro i hi
      have h2 := h (i + 1) (by simpa using Nat.succ_lt_succ hi)
      rw [show n + 1 + i = n + (i + 1) from by omega]
      simpa using h2
    rw [List.enumFrom_cons, List.filter_cons, List.filter_cons]
    by_cases hk : keep n = true
    · rw [if_pos (by simpa using hk), if_pos (by rw [← h0]; exact hk)]
      simp only [List.map_cons]
      rw [ih (n + 1) keep htail]
    · rw [if_neg (by simpa using hk), if_neg (by rw [← h0]; simpa using hk)]
      exact ih (n + 1) keep htail

theorem range_filter_map_getD {α : Type} (d : α) (Q : α → Bool) :
    ∀ l : List α,
      ((List.range l.length).filter (fun i => Q (l.getD i d))).map (fun i => l.getD i d) =
        l.filter Q := by
  intro l
  induction l with
  | nil => simp
  | cons a t ih =>
    rw [show (a :: t).length = t.length + 1 from rfl, List.range_succ_eq_map,
      List.filter_cons]
    have hsf : List.filter (fun i => Q ((a :: t).getD i d)) (List.map Nat.succ
        (List.range t.length)) =
        List.map Nat.succ (List.filter (fun i => Q (t.getD i d)) (List.range t.length)) := by
      rw [List.filter_map]
      have hc : ((fun i => Q ((a :: t).getD i d)) ∘ Nat.succ) = fun i => Q (t.getD i d) :=
        funext fun i => by simp [Function.comp, List.getD_cons_succ]
      rw [hc]
    by_cases hq : Q a = true
    · rw [if_pos (by simpa [List.getD_cons_zero] using hq)]
      simp only [List.map_cons, List.getD_cons_zero, hsf, List.map_map]
      rw [show ((fun i => (a :: t).getD i d) ∘ Nat.succ) = (fun i => t.getD i d) from
        funext (fun i => by simp [Function.comp, List.getD_cons_succ])]
      rw [ih, List.filter_cons, if_pos hq]
    · rw [if_neg (by simpa [List.getD_cons_zero] using hq)]
      rw [hsf, List.map_map]
      rw [show ((fun i => (a :: t).getD i d) ∘ Nat.succ) = (fun i => t.getD i d) from
        funext (fun i => by simp [Function.comp, List.getD_cons_succ])]
      rw [ih, List.filter_cons, if_neg hq]

theorem killStep_es (now : Int) (st : PassState) (i : Nat) :
    (killStep now st i).es = st.es.set i
      { st.es.getD i dfltEnemy with health := (st.es.getD i dfltEnemy).health - 1 } := by
  unfold killStep
  dsimp only
  split <;> rfl

theorem killStep_p (now : Int) (st : PassState) (i : Nat) :
    (killStep now st i).p =
      if (st.es.getD i dfltEnemy).health - 1 ≤ 0 then
        (if (st.es.getD i dfltEnemy).has_captured_player then st.p.rescue now else st.p)
      else st.p := by
  unfold killStep
  dsimp only
  split <;> rename_i h <;> simp at h <;> simp [h]

theorem killStep_killed (now : Int) (st : PassState) (i : Nat) :
    (killStep now st i).killed =
      if (st.es.getD i dfltEnemy).health - 1 ≤ 0 then st.killed ++ [i] else st.killed := by
  unfold killStep
  dsimp only
  split <;> rename_i h <;> simp at h <;> simp [h]

theorem killStep_score (now : Int) (st : PassState) (i : Nat) :
    (killStep now st i).score =
      if (st.es.getD i dfltEnemy).health - 1 ≤ 0 then
        st.score + (st.es.getD i dfltEnemy).points
      else st.score := by
  unfold killStep
  dsimp only
  split <;> rename_i h <;> simp at h <;> simp [h]

theorem procPairs_spec (now : Int) :
    ∀ (idxs : List Nat) (st : PassState),
      idxs.Pairwise (· < ·) → (∀ i ∈ idxs, i < st.es.length) →
      ((procPairs now idxs st).p =
        ((idxs.filter (fun i => decide ((st.es.getD i dfltEnemy).health - 1 ≤ 0))).map
          (fun i => st.es.getD i dfltEnemy)).foldl
          (fun q e => if e.has_captured_player then q.rescue now else q) st.p) ∧
      ((procPairs now idxs st).killed =
        st.killed ++ idxs.filter (fun i => decide ((st.es.getD i dfltEnemy).health - 1 ≤ 0))) ∧
      ((procPairs now idxs st).score =
        st.score + (((idxs.filter (fun i => decide ((st.es.getD i dfltEnemy).health - 1 ≤ 0))).map
          (fun i => (st.es.getD i dfltEnemy).points)).sum)) ∧
      ((procPairs now idxs st).es.length = st.es.length) ∧
      (∀ j : Nat, (procPairs now idxs st).es[j]? =
        if j ∈ idxs then (st.es[j]?).map (fun e => { e with health := e.health - 1 })
        else st.es[j]?) := by
  intro idxs
  induction idxs with
  | nil =>
    intro st _ _
    simp [procPairs]
  | cons i rest ih =>
    intro st hpw hbound
    have hpc := List.pairwise_cons.mp hpw
    have hi : i < st.es.length := hbound i (List.mem_cons_self i rest)
    have hlt : ∀ j ∈ rest, i < j := hpc.1
    have hmem_i : ¬ i ∈ rest := fun h => absurd (hlt i h) (lt_irrefl i)
    have hes1 := killStep_es now st i
    have hlen1 : (killStep now st i).es.length = st.es.length := by
      rw [hes1, List.length_set]
    have hbound1 : ∀ j ∈ rest, j < (killStep now st i).es.length := by
      intro j hj
      rw [hlen1]
      exact hbound j (List.mem_cons_of_mem _ hj)
    have hgetD : ∀ j ∈ rest, (killStep now st i).es.getD j dfltEnemy =
        st.es.getD j dfltEnemy := by
      intro j hj
      rw [hes1, List.getD_eq_getElem?_getD,
        List.getElem?_set_ne (Nat.ne_of_lt (hlt j hj)), ← List.getD_eq_getElem?_getD]
    have ihs := ih (killStep now st i) hpc.2 hbound1
    have hfilter : rest.filter
        (fun j => decide (((killStep now st i).es.getD j dfltEnemy).health - 1 ≤ 0)) =
        rest.filter (fun j => decide ((st.es.getD j dfltEnemy).health - 1 ≤ 0)) :=
      List.filter_congr (fun j hj => by rw [hgetD j hj])
    have hmapv : (rest.filter (fun j =>
          decide ((st.es.getD j dfltEnemy).health - 1 ≤ 0))).map
        (fun j => (killStep now st i).es.getD j dfltEnemy) =
        (rest.filter (fun j => decide ((st.es.getD j dfltEnemy).health - 1 ≤ 0))).map
        (fun j => st.es.getD j dfltEnemy) :=
      List.map_congr_left (fun j hj => hgetD j (List.mem_filter.mp hj).1)
    have hmapp : (rest.filter (fun j =>
          decide ((st.es.getD j dfltEnemy).health - 1 ≤ 0))).map
        (fun j => ((killStep now st i).es.getD j dfltEnemy).points) =
        (rest.filter (fun j => decide ((st.es.getD j dfltEnemy).health - 1 ≤ 0))).map
        (fun j => (st.es.getD j dfltEnemy).points) :=
      List.map_congr_left (fun j hj => by rw [hgetD j (List.mem_filter.mp hj).1])
    have hstep : procPairs now (i :: rest) st = procPairs now rest (killStep now st i) := rfl
    by_cases hd : (st.es.getD i dfltEnemy).health - 1 ≤ 0
    · refine ⟨?_, ?_, ?_, ?_, ?_⟩
      · rw [hstep, ihs.1, hfilter, hmapv, List.filter_cons, if_pos (by simpa using hd),
          List.map_cons, List.foldl_cons, killStep_p, if_pos hd]
      · rw [hstep, ihs.2.1, hfilter, killStep_killed, if_pos hd, List.filter_cons,
          if_pos (by simpa using hd), List.append_assoc, List.singleton_append]
      · rw [hstep, ihs.2.2.1, hfilter, hmapp, killStep_score, if_pos hd, List.filter_cons,
          if_pos (by simpa using hd), List.map_cons, List.sum_cons]
        omega
      · rw [hstep, ihs.2.2.2.1, hlen1]
      · intro j
        rw [hstep, ihs.2.2.2.2 j, hes1]
        by_cases hji : j = i
        · subst hji
          rw [if_neg hmem_i, if_pos (List.mem_cons_self j rest),
            List.getElem?_set_self hi, List.getElem?_eq_getElem hi,
            List.getD_eq_getElem st.es dfltEnemy hi]
          rfl
        · rw [List.getElem?_set_ne (fun h => hji h.symm)]
          by_cases hjr : j ∈ rest
          · rw [if_pos hjr, if_pos (List.mem_cons_of_mem _ hjr)]
          · rw [if_neg hjr, if_neg (by simp [hji, hjr])]
    · refine ⟨?_, ?_, ?_, ?_, ?_⟩
      · rw [hstep, ihs.1, hfilter, hmapv, List.filter_cons, if_neg (by simpa using hd),
          killStep_p, if_neg hd]
      · rw [hstep, ihs.2.1, hfilter, killStep_killed, if_neg hd, List.filter_cons,
          if_neg (by simpa using hd)]
      · rw [hstep, ihs.2.2.1, hfilter, hmapp, killStep_score, if_neg hd, List.filter_cons,
          if_neg (by simpa using hd)]
      · rw [hstep, ihs.2.2.2.1, hlen1]
      · intro j
        rw [hstep, ihs.2.2.2.2 j, hes1]
        by_cases hji : j = i
        · subst hji
          rw [if_neg hmem_i, if_pos (List.mem_cons_self j rest),
            List.getElem?_set_self hi, List.getElem?_eq_getElem hi,
            List.getD_eq_getElem st.es dfltEnemy hi]
          rfl
        · rw [List.getElem?_set_ne (fun h => hji h.symm)]
          by_cases hjr : j ∈ rest
          · rw [if_pos hjr, if_pos (List.mem_cons_of_mem _ hjr)]
          · rw [if_neg hjr, if_neg (by simp [hji, hjr])]

/-- Claim C6: in one resolution pass, a player bullet overlapping N ≥ 1
live enemies (all live enemies have health ≥ 1) is removed exactly once
(it does not survive the pass); every overlapping enemy loses exactly 1
health and non-overlapping enemies are untouched; an enemy whose health
reaches 0 or below is removed from the surviving population, the player is
rescued for each removed enemy that carried the captured ship, and the
points of each removed enemy are added to the score. -/
theorem C6_bullet_pass (now : Int) (b : Rect) (p : Player) (es : List Enemy) (score : Int)
    (hN : es.any (fun e => colliderect b e.rect) = true)
    (hhp : ∀ e ∈ es, 1 ≤ e.health) :
    (bulletEnemyPass now [b] p es score).1 = [] ∧
    (bulletEnemyPass now [b] p es score).2.2.1 =
      (es.map (fun e => if colliderect b e.rect then { e with health := e.health - 1 }
        else e)).filter (fun e => decide (0 < e.health)) ∧
    (bulletEnemyPass now [b] p es score).2.2.2 =
      score + ((es.filter (fun e => colliderect b e.rect &&
        decide (e.health - 1 ≤ 0))).map (fun e => e.points)).sum ∧
    (bulletEnemyPass now [b] p es score).2.1 =
      (es.filter (fun e => colliderect b e.rect && decide (e.health - 1 ≤ 0))).foldl
        (fun q e => if e.has_captured_player then q.rescue now else q) p := by
  have hpairs : ([b].flatMap (fun b0 => (List.range es.length).filter
      (fun i => colliderect b0 ((es.getD i dfltEnemy).rect)))) =
      (List.range es.length).filter (fun i => colliderect b ((es.getD i dfltEnemy).rect)) := by
    simp
  have hpw : ((List.range es.length).filter
      (fun i => colliderect b ((es.getD i dfltEnemy).rect))).Pairwise (· < ·) :=
    List.Pairwise.sublist (List.filter_sublist _) (List.pairwise_lt_range _)
  have hbound : ∀ i ∈ (List.range es.length).filter
      (fun i => colliderect b ((es.getD i dfltEnemy).rect)), i < es.length :=
    fun i hi => List.mem_range.mp (List.mem_filter.mp hi).1
  have hspec := procPairs_spec now ((List.range es.length).filter
      (fun i => colliderect b ((es.getD i dfltEnemy).rect))) (PassState.mk p es [] score)
      hpw hbound
  dsimp only at hspec
  have hki : ((List.range es.length).filter
      (fun i => colliderect b ((es.getD i dfltEnemy).rect))).filter
      (fun i => decide ((es.getD i dfltEnemy).health - 1 ≤ 0)) =
      (List.range es.length).filter (fun i => colliderect b ((es.getD i dfltEnemy).rect) &&
        decide ((es.getD i dfltEnemy).health - 1 ≤ 0)) := by
    rw [List.filter_filter]
    exact List.filter_congr (fun x _ => Bool.and_comm _ _)
  have hkv : (((List.range es.length).filter
      (fun i => colliderect b ((es.getD i dfltEnemy).rect))).filter
      (fun i => decide ((es.getD i dfltEnemy).health - 1 ≤ 0))).map
      (fun i => es.getD i dfltEnemy) =
      es.filter (fun e => colliderect b e.rect && decide (e.health - 1 ≤ 0)) := by
    rw [hki]
    exact range_filter_map_getD dfltEnemy
      (fun e => colliderect b e.rect && decide (e.health - 1 ≤ 0)) es
  simp only [bulletEnemyPass]
  rw [hpairs]
  have hesF : (procPairs now ((List.range es.length).filter
      (fun i => colliderect b ((es.getD i dfltEnemy).rect))) (PassState.mk p es [] score)).es =
      es.map (fun e => if colliderect b e.rect then { e with health := e.health - 1 }
        else e) := by
    apply List.ext_getElem?
    intro j
    rw [hspec.2.2.2.2 j, List.getElem?_map]
    by_cases hj : j < es.length
    · have hgd : es.getD j dfltEnemy = es[j] := List.getD_eq_getElem es dfltEnemy hj
      rw [List.getElem?_eq_getElem hj]
      by_cases hov : colliderect b (es[j].rect) = true
      · have hmem : j ∈ (List.range es.length).filter
            (fun i => colliderect b ((es.getD i dfltEnemy).rect)) :=
          List.mem_filter.mpr ⟨List.mem_range.mpr hj, by rw [hgd]; exact hov⟩
        rw [if_pos hmem]
        simp [hov]
      · have hmem : ¬ j ∈ (List.range es.length).filter
            (fun i => colliderect b ((es.getD i dfltEnemy).rect)) := by
          intro hm
          have h2 := (List.mem_filter.mp hm).2
          rw [hgd] at h2
          exact hov h2
        rw [if_neg hmem]
        simp [hov]
    · have hnone : es[j]? = none := by
        simp [List.getElem?_eq_none_iff]
        omega
      have hmem : ¬ j ∈ (List.range es.length).filter
          (fun i => colliderect b ((es.getD i dfltEnemy).rect)) :=
        fun hm => hj (hbound j hm)
      rw [if_neg hmem, hnone]
      rfl
  refine ⟨?_, ?_, ?_, ?_⟩
  · simp [hN]
  · rw [hesF]
    have hkilled : (procPairs now ((List.range es.length).filter
        (fun i => colliderect b ((es.getD i dfltEnemy).rect)))
        (PassState.mk p es [] score)).killed =
        ((List.range es.length).filter
          (fun i => colliderect b ((es.getD i dfltEnemy).rect))).filter
          (fun i => decide ((es.getD i dfltEnemy).health - 1 ≤ 0)) := by
      rw [hspec.2.1]
      simp
    rw [hkilled, List.enum_eq_enumFrom]
    refine enumFrom_filter_map_eq_filter dfltEnemy (fun e => decide (0 < e.health)) _ 0
      (fun i => !decide (i ∈ ((List.range es.length).filter
        (fun i => colliderect b ((es.getD i dfltEnemy).rect))).filter
        (fun i => decide ((es.getD i dfltEnemy).health - 1 ≤ 0)))) ?_
    intro i hi
    dsimp only
    rw [Nat.zero_add]
    have hilen : i < es.length := by simpa using hi
    have hgd : es.getD i dfltEnemy = es[i] := List.getD_eq_getElem es dfltEnemy hilen
    have hgdm : (es.map (fun e => if colliderect b e.rect then
        { e with health := e.health - 1 } else e)).getD i dfltEnemy =
        (if colliderect b (es[i].rect) then { es[i] with health := es[i].health - 1 }
          else es[i]) := by
      rw [List.getD_eq_getElem _ _ (by simpa using hilen), List.getElem_map]
    rw [hgdm]
    have hmemiff : i ∈ ((List.range es.length).filter
        (fun i => colliderect b ((es.getD i dfltEnemy).rect))).filter
        (fun i => decide ((es.getD i dfltEnemy).health - 1 ≤ 0)) ↔
        (colliderect b (es[i].rect) = true ∧ es[i].health - 1 ≤ 0) := by
      rw [List.mem_filter, List.mem_filter, List.mem_range]
      constructor
      · intro h
        refine ⟨by rw [← hgd]; exact h.1.2, ?_⟩
        have h2 := of_decide_eq_true h.2
        rwa [hgd] at h2
      · intro h
        exact ⟨⟨hilen, by rw [hgd]; exact h.1⟩, decide_eq_true (by rw [hgd]; exact h.2)⟩
    by_cases hov : colliderect b (es[i].rect) = true
    · by_cases hdead : es[i].health - 1 ≤ 0
      · rw [if_pos hov, decide_eq_true (hmemiff.mpr ⟨hov, hdead⟩),
          decide_eq_false (show ¬ (0 < ({es[i] with health := es[i].health - 1} :
            Enemy).health) from by dsimp only; omega)]
        rfl
      · rw [if_pos hov,
          decide_eq_false (show ¬ i ∈ ((List.range es.length).filter
            (fun i => colliderect b ((es.getD i dfltEnemy).rect))).filter
            (fun i => decide ((es.getD i dfltEnemy).health - 1 ≤ 0)) from
            fun h => hdead (hmemiff.mp h).2),
          decide_eq_true (show (0 < ({es[i] with health := es[i].health - 1} :
            Enemy).health) from by dsimp only; omega)]
        rfl
    · have h1 : 1 ≤ es[i].health := hhp es[i] (List.getElem_mem hilen)
      rw [if_neg hov,
        decide_eq_false (show ¬ i ∈ ((List.range es.length).filter
          (fun i => colliderect b ((es.getD i dfltEnemy).rect))).filter
          (fun i => decide ((es.getD i dfltEnemy).health - 1 ≤ 0)) from
          fun h => hov (hmemiff.mp h).1),
        decide_eq_true (show 0 < es[i].health from by omega)]
      rfl
  · rw [hspec.2.2.1]
    have hms : (((List.range es.length).filter
        (fun i => colliderect b ((es.getD i dfltEnemy).rect))).filter
        (fun i => decide ((es.getD i dfltEnemy).health - 1 ≤ 0))).map
        (fun i => (es.getD i dfltEnemy).points) =
        (es.filter (fun e => colliderect b e.rect &&
          decide (e.health - 1 ≤ 0))).map (fun e => e.points) := by
      rw [← hkv, List.map_map]
      rfl
    rw [hms]
  · rw [hspec.1, hkv]

/-- A bullet rect overlapping the two near enemies of `esHit`. -/
def bHit : Rect := Rect.mk 100 100 6 12

/-- Three enemies: a one-health boss carrying the captured ship and a
two-health wasp overlap `bHit`; a far small enemy does not. -/
def esHit : List Enemy :=
  [{ mkEnemy 90 95 .large with health := 1, has_captured_player := true },
   mkEnemy 95 100 .medium,
   mkEnemy 400 400 .small]

/-- A captured player (carried by enemy 0 of `esHit`). -/
def pCaptured : Player := { Player.init 0 with is_captured := true, captured_by := some 0 }

/-- Witness for C6: the bullet dies, the boss dies (rescuing the player
and scoring its 400 points), the wasp survives at 1 health, and the far
enemy is untouched. -/
theorem C6_bullet_pass_witness :
    (esHit.any (fun e => colliderect bHit e.rect) = true) ∧
    (∀ e ∈ esHit, 1 ≤ e.health) ∧
    ((bulletEnemyPass 0 [bHit] pCaptured esHit 0).1 = [] ∧
     (bulletEnemyPass 0 [bHit] pCaptured esHit 0).2.2.1 =
       (esHit.map (fun e => if colliderect bHit e.rect then { e with health := e.health - 1 }
         else e)).filter (fun e => decide (0 < e.health)) ∧
     (bulletEnemyPass 0 [bHit] pCaptured esHit 0).2.2.2 =
       0 + ((esHit.filter (fun e => colliderect bHit e.rect &&
         decide (e.health - 1 ≤ 0))).map (fun e => e.points)).sum ∧
     (bulletEnemyPass 0 [bHit] pCaptured esHit 0).2.1 =
       (esHit.filter (fun e => colliderect bHit e.rect && decide (e.health - 1 ≤ 0))).foldl
         (fun q e => if e.has_captured_player then q.rescue 0 else q) pCaptured) :=
  ⟨by decide, by decide, C6_bullet_pass 0 bHit pCaptured esHit 0 (by decide) (by decide)⟩

def dive_interval : Int := 3000

/-- Body of the `for enemy in diving_enemies` loop of the dive scheduler
in `run_game`: a sampled enemy that is not already diving and not carrying
the captured player starts a dive toward `(player.centerx + off, 850)`;
a sampled ineligible enemy is skipped.  `off i`/`ctrl i` are the
`random.randint(-50, 50)` target offset and the Bezier control offset used
inside `start_dive` for enemy `i`. -/
def diveStep (off ctrl : Nat → Int) (pcx : Int) (cur : List Enemy) (i : Nat) : List Enemy :=
  let e := cur.getD i dfltEnemy
  if !e.is_diving && !e.has_captured_player then
    cur.set i (e.start_dive (pcx + off i) (WINDOW_HEIGHT + 50) (ctrl i))
  else cur

/-- The `for enemy in diving_enemies` loop over the sampled enemies. -/
def diveSchedulerSelect (es : List Enemy) (sample : List Nat) (off ctrl : Nat → Int)
    (pcx : Int) : List Enemy :=
  sample.foldl (diveStep off ctrl pcx) es

/-- The dive scheduler of `run_game`: fires only when the dive interval
elapsed and enemies exist; `sample` is the index set drawn by
`random.sample(list(enemies), dive_count)` from the whole population. -/
def diveScheduler (now last_dive_time : Int) (es : List Enemy) (sample : List Nat)
    (off ctrl : Nat → Int) (pcx : Int) : List Enemy :=
  if now - last_dive_time > dive_interval ∧ 0 < es.length then
    diveSchedulerSelect es sample off ctrl pcx
  else es

theorem diveStep_getElem?_ne (off ctrl : Nat → Int) (pcx : Int) (cur : List Enemy)
    (i j : Nat) (h : j ≠ i) : (diveStep off ctrl pcx cur i)[j]? = cur[j]? := by
  unfold diveStep
  dsimp only
  split
  · exact List.getElem?_set_ne (fun he => h he.symm)
  · rfl

theorem diveStep_length (off ctrl : Nat → Int) (pcx : Int) (cur : List Enemy) (i : Nat) :
    (diveStep off ctrl pcx cur i).length = cur.length := by
  unfold diveStep
  dsimp only
  split
  · exact List.length_set cur i _
  · rfl

theorem diveStep_getElem?_eligible (off ctrl : Nat → Int) (pcx : Int) (cur : List Enemy)
    (i : Nat) (e : Enemy) (he : cur[i]? = some e) (hd : e.is_diving = false)
    (hc : e.has_captured_player = false) :
    (diveStep off ctrl pcx cur i)[i]? =
      some (e.start_dive (pcx + off i) (WINDOW_HEIGHT + 50) (ctrl i)) := by
  have hlen : i < cur.length := (List.getElem?_eq_some.mp he).1
  have hgd : cur.getD i dfltEnemy = e := by
    rw [List.getD_eq_getElem?_getD, he]
    rfl
  unfold diveStep
  dsimp only
  rw [hgd, hd, hc]
  simp only [Bool.not_false, Bool.and_self, if_true]
  exact List.getElem?_set_self hlen

theorem diveStep_getElem?_ineligible (off ctrl : Nat → Int) (pcx : Int) (cur : List Enemy)
    (i : Nat) (e : Enemy) (he : cur[i]? = some e)
    (hor : e.is_diving = true ∨ e.has_captured_player = true) :
    (diveStep off ctrl pcx cur i)[i]? = some e := by
  have hgd : cur.getD i dfltEnemy = e := by
    rw [List.getD_eq_getElem?_getD, he]
    rfl
  unfold diveStep
  dsimp only
  rw [hgd]
  rcases hor with h | h
  · rw [h]
    simp only [Bool.not_true, Bool.false_and, if_false]
    exact he
  · rw [h]
    simp only [Bool.not_true, Bool.and_false, if_false]
    exact he

/-- An enemy already mid-dive. -/
def eDiving : Enemy := { mkEnemy 100 50 .small with is_diving := true }

/-- An enemy resting in formation (eligible to dive). -/
def eFree : Enemy := mkEnemy 200 50 .small

/-- Claim C7 counterexample: `random.sample` draws from the ENTIRE enemy
population, not from the eligible ones; eligibility is only checked after
selection.  With the interval elapsed and two enemies present, a
legitimate scheduler outcome samples exactly the already-diving enemy: the
selected enemy is not eligible, `start_dive` is called on nobody, and the
population is returned unchanged — refuting the claim that each of the 1–2
selected enemies is eligible and receives `startDive`. -/
theorem C7_sample_ineligible_counterexample :
    (4000 : Int) - 0 > dive_interval ∧
    0 < ([eDiving, eFree] : List Enemy).length ∧
    eDiving.is_diving = true ∧
    diveScheduler 4000 0 [eDiving, eFree] [0] (fun _ => 0) (fun _ => 0) 300 =
      [eDiving, eFree] := by
  decide

/-- Claim C7 (amended): every 3000 ms with at least one enemy alive, the
scheduler samples 1–2 distinct enemies from the whole population; each
sampled enemy that is eligible (not diving, not carrying the captured
player) gets `startDive` toward `(player.centerx + off, 850)` with the
offset within ±50 of the player's horizontal center and the vertical
target 850 below the 800-pixel field; sampled ineligible enemies and
unsampled enemies are left unchanged (so possibly no dive starts). -/
theorem C7_dive_scheduler_spec (now last : Int) (es : List Enemy) (sample : List Nat)
    (off ctrl : Nat → Int) (pcx : Int)
    (hguard : now - last > dive_interval) (hlen : 0 < es.length)
    (hpw : sample.Pairwise (· < ·)) (hb : ∀ i ∈ sample, i < es.length)
    (hsz : 1 ≤ sample.length ∧ sample.length ≤ 2)
    (hoff : ∀ i, -50 ≤ off i ∧ off i ≤ 50) :
    (∀ j ∈ sample, pcx - 50 ≤ pcx + off j ∧ pcx + off j ≤ pcx + 50) ∧
    WINDOW_HEIGHT < WINDOW_HEIGHT + 50 ∧
    ∀ (j : Nat) (e : Enemy), es[j]? = some e →
      ((¬ j ∈ sample ∨ e.is_diving = true ∨ e.has_captured_player = true) →
        (diveScheduler now last es sample off ctrl pcx)[j]? = some e) ∧
      (j ∈ sample → e.is_diving = false → e.has_captured_player = false →
        (diveScheduler now last es sample off ctrl pcx)[j]? =
          some (e.start_dive (pcx + off j) (WINDOW_HEIGHT + 50) (ctrl j))) := by
  refine ⟨fun j _ => by have := hoff j; omega, by norm_num [WINDOW_HEIGHT], ?_⟩
  intro j e hje
  unfold diveScheduler
  rw [if_pos ⟨hguard, hlen⟩]
  unfold diveSchedulerSelect
  rcases sample with _ | ⟨a, rest⟩
  · simp at hsz
  · rcases rest with _ | ⟨b2, rest2⟩
    · -- one sampled enemy
      rw [List.foldl_cons, List.foldl_nil]
      constructor
      · intro hcase
        by_cases hja : j = a
        · subst hja
          rcases hcase with hns | hd | hcp
          · exact absurd (List.mem_cons_self j []) hns
          · exact diveStep_getElem?_ineligible off ctrl pcx es j e hje (Or.inl hd)
          · exact diveStep_getElem?_ineligible off ctrl pcx es j e hje (Or.inr hcp)
        · rw [diveStep_getElem?_ne off ctrl pcx es a j hja]
          exact hje
      · intro hjs hd hcp
        have hja : j = a := by simpa using hjs
        subst hja
        exact diveStep_getElem?_eligible off ctrl pcx es j e hje hd hcp
    · rcases rest2 with _ | ⟨c, rest3⟩
      · -- two sampled enemies, a < b2
        have hab : a < b2 := (List.pairwise_cons.mp hpw).1 b2 (List.mem_cons_self b2 [])
        have hne : a ≠ b2 := Nat.ne_of_lt hab
        rw [List.foldl_cons, List.foldl_cons, List.foldl_nil]
        have hb2 : (diveStep off ctrl pcx es a)[b2]? = es[b2]? :=
          diveStep_getElem?_ne off ctrl pcx es a b2 (fun h => hne h.symm)
        constructor
        · intro hcase
          by_cases hja : j = a
          · subst hja
            have hstep1 : (diveStep off ctrl pcx es j)[j]? = some e ∨
                (diveStep off ctrl pcx es j)[j]? =
                  some (e.start_dive (pcx + off j) (WINDOW_HEIGHT + 50) (ctrl j)) := by
              rcases hcase with hns | hd | hcp
              · exact absurd (List.mem_cons_self j _) hns
              · exact Or.inl (diveStep_getElem?_ineligible off ctrl pcx es j e hje (Or.inl hd))
              · exact Or.inl (diveStep_getElem?_ineligible off ctrl pcx es j e hje (Or.inr hcp))
            have hj2 : (diveStep off ctrl pcx (diveStep off ctrl pcx es j) b2)[j]? =
                (diveStep off ctrl pcx es j)[j]? :=
              diveStep_getElem?_ne off ctrl pcx _ b2 j (Nat.ne_of_lt hab)
            rcases hcase with hns | hd | hcp
            · exact absurd (List.mem_cons_self j _) hns
            · rw [hj2]
              exact diveStep_getElem?_ineligible off ctrl pcx es j e hje (Or.inl hd)
            · rw [hj2]
              exact diveStep_getElem?_ineligible off ctrl pcx es j e hje (Or.inr hcp)
          · by_cases hjb : j = b2
            · subst hjb
              have he1 : (diveStep off ctrl pcx es a)[j]? = some e := by
                rw [diveStep_getElem?_ne off ctrl pcx es a j hja]
                exact hje
              rcases hcase with hns | hd | hcp
              · exact absurd (List.mem_cons_of_mem a (List.mem_cons_self j [])) hns
              · exact diveStep_getElem?_ineligible off ctrl pcx _ j e he1 (Or.inl hd)
              · exact diveStep_getElem?_ineligible off ctrl pcx _ j e he1 (Or.inr hcp)
            · rw [diveStep_getElem?_ne off ctrl pcx _ b2 j hjb,
                diveStep_getElem?_ne off ctrl pcx es a j hja]
              exact hje
        · intro hjs hd hcp
          have hjab : j = a ∨ j = b2 := by simpa using hjs
          rcases hjab with hja | hjb
          · subst hja
            rw [diveStep_getElem?_ne off ctrl pcx _ b2 j (Nat.ne_of_lt hab)]
            exact diveStep_getElem?_eligible off ctrl pcx es j e hje hd hcp
          · subst hjb
            have he1 : (diveStep off ctrl pcx es a)[j]? = some e := by
              rw [diveStep_getElem?_ne off ctrl pcx es a j (fun h => hne h.symm)]
              exact hje
            exact diveStep_getElem?_eligible off ctrl pcx _ j e he1 hd hcp
      · -- samples of three or more never occur
        exfalso
        have := hsz.2
        simp at this

/-- Witness for the amended C7: with the interval elapsed, sampling the
eligible enemy (index 1) of a two-enemy population starts its dive toward
`(310, 850)`. -/
theorem C7_dive_scheduler_spec_witness :
    ((4000 : Int) - 0 > dive_interval) ∧
    (0 < ([eDiving, eFree] : List Enemy).length) ∧
    (([1] : List Nat).Pairwise (· < ·)) ∧
    (∀ i ∈ ([1] : List Nat), i < ([eDiving, eFree] : List Enemy).length) ∧
    (1 ≤ ([1] : List Nat).length ∧ ([1] : List Nat).length ≤ 2) ∧
    ((∀ j ∈ ([1] : List Nat), (300 : Int) - 50 ≤ 300 + (fun (_ : Nat) => (10 : Int)) j ∧
        300 + (fun (_ : Nat) => (10 : Int)) j ≤ 300 + 50) ∧
      WINDOW_HEIGHT < WINDOW_HEIGHT + 50 ∧
      ∀ (j : Nat) (e : Enemy), ([eDiving, eFree] : List Enemy)[j]? = some e →
        ((¬ j ∈ ([1] : List Nat) ∨ e.is_diving = true ∨ e.has_captured_player = true) →
          (diveScheduler 4000 0 [eDiving, eFree] [1] (fun _ => 10) (fun _ => 0) 300)[j]? =
            some e) ∧
        (j ∈ ([1] : List Nat) → e.is_diving = false → e.has_captured_player = false →
          (diveScheduler 4000 0 [eDiving, eFree] [1] (fun _ => 10) (fun _ => 0) 300)[j]? =
            some (e.start_dive (300 + (fun (_ : Nat) => (10 : Int)) j)
              (WINDOW_HEIGHT + 50) ((fun (_ : Nat) => (0 : Int)) j)))) :=
  ⟨by decide, by decide, by decide, by decide, by decide,
    C7_dive_scheduler_spec 4000 0 [eDiving, eFree] [1] (fun _ => 10) (fun _ => 0) 300
      (by decide) (by decide) (by decide) (by decide) (by decide)
      (fun i => by norm_num)⟩

/-- The player-mutating operations that occur in one frame of `run_game`:
`update` (invincibility expiry plus movement intents), `shoot`, the
collision outcomes `hit`/`get_captured`/`rescue`, the session loop's
respawn grant of invincibility (`respawnGrant`), its position reset in the
capture branch (`recenter`), and the captor pinning the captured player's
position each frame in `Enemy.update` (`pinTo`). -/
inductive FrameOp where
  | update (now : Int) (left right : Bool)
  | doShoot (now : Int)
  | doHit (now : Int)
  | doCapture (captor : Nat)
  | respawnGrant (now : Int)
  | recenter
  | pinTo (x y : Int)
  | doRescue (now : Int)
deriving Repr, DecidableEq

/-- Effect of each frame operation on the player state. -/
def applyOp (p : Player) : FrameOp → Player
  | .update now l r => p.update now l r
  | .doShoot now => (p.shoot now).1
  | .doHit now => p.hit now
  | .doCapture c => p.get_captured c
  | .respawnGrant now =>
      { p with invincible := true, invincible_timer := now, flash_counter := 0 }
  | .recenter =>
      { p with rect := ((p.rect.setCenterx (WINDOW_WIDTH.fdiv 2)).setBottom
          (WINDOW_HEIGHT - 20)) }
  | .pinTo x y => { p with rect := { p.rect with x := x, y := y } }
  | .doRescue now => p.rescue now

def FrameOp.isRescue : FrameOp → Bool
  | .doRescue _ => true
  | _ => false

theorem applyOp_preserves_captured (p : Player) (o : FrameOp) (ho : o.isRescue = false)
    (hc : p.is_captured = true) : (applyOp p o).is_captured = true := by
  cases o with
  | update now l r =>
    unfold applyOp Player.update
    dsimp only
    by_cases hi : p.invincible <;>
      by_cases ht : now - p.invincible_timer > invincible_duration <;> simp [hi, ht, hc]
  | doShoot now =>
    unfold applyOp Player.shoot
    simp [hc]
  | doHit now =>
    unfold applyOp Player.hit
    simp [hc]
  | doCapture c =>
    unfold applyOp Player.get_captured
    simp [hc]
  | respawnGrant now => simpa [applyOp] using hc
  | recenter => simpa [applyOp] using hc
  | pinTo x y => simpa [applyOp] using hc
  | doRescue now => simp [FrameOp.isRescue] at ho

theorem foldl_applyOp_captured (ops : List FrameOp) :
    ∀ p : Player, p.is_captured = true → (∀ o ∈ ops, o.isRescue = false) →
      (ops.foldl applyOp p).is_captured = true := by
  induction ops with
  | nil =>
    intro p hc _
    simpa using hc
  | cons o rest ih =>
    intro p hc hno
    rw [List.foldl_cons]
    exact ih (applyOp p o)
      (applyOp_preserves_captured p o (hno o (List.mem_cons_self o rest)) hc)
      (fun o2 h2 => hno o2 (List.mem_cons_of_mem o h2))

/-- Claim C10: once `get_captured` succeeds, `is_captured` stays true
across every frame operation until `rescue` is called: no sequence of
rescue-free frame operations clears it; while captured, `shoot` is a
perfect no-op producing no bullets, movement-intent processing leaves the
position unchanged, and the session loop's respawn grant only sets
invincibility (never touching the capture state). -/
theorem C10_captivity_persists (p : Player) (ops : List FrameOp)
    (hc : p.is_captured = true) (hno : ∀ o ∈ ops, o.isRescue = false) :
    (ops.foldl applyOp p).is_captured = true ∧
    (∀ now : Int, (p.shoot now).1 = p ∧ (p.shoot now).2 = []) ∧
    (∀ (now : Int) (l r : Bool), (p.update now l r).rect = p.rect) ∧
    (∀ now : Int, applyOp p (.respawnGrant now) =
      { p with invincible := true, invincible_timer := now, flash_counter := 0 }) := by
  refine ⟨foldl_applyOp_captured ops p hc hno, ?_, ?_, ?_⟩
  · intro now
    unfold Player.shoot
    simp [hc]
  · intro now l r
    unfold Player.update
    dsimp only
    by_cases hi : p.invincible <;>
      by_cases ht : now - p.invincible_timer > invincible_duration <;> simp [hi, ht, hc]
  · intro now
    rfl

/-- A captured player for the C10 witness. -/
def pCap10 : Player := { Player.init 0 with is_captured := true, captured_by := some 1 }

/-- A rescue-free frame-operation sequence exercising every non-rescue
operation. -/
def opsW : List FrameOp :=
  [.update 10 true false, .doShoot 20, .doHit 30, .doCapture 5, .respawnGrant 40,
   .recenter, .pinTo 120 60]

/-- Witness for C10: a captured player stays captured across a whole
rescue-free frame-operation sequence, and the no-op clauses hold. -/
theorem C10_captivity_persists_witness :
    pCap10.is_captured = true ∧ (∀ o ∈ opsW, o.isRescue = false) ∧
    ((opsW.foldl applyOp pCap10).is_captured = true ∧
     (∀ now : Int, (pCap10.shoot now).1 = pCap10 ∧ (pCap10.shoot now).2 = []) ∧
     (∀ (now : Int) (l r : Bool), (pCap10.update now l r).rect = pCap10.rect) ∧
     (∀ now : Int, applyOp pCap10 (.respawnGrant now) =
       { pCap10 with invincible := true, invincible_timer := now, flash_counter := 0 })) :=
  ⟨by decide, by decide, C10_captivity_persists pCap10 opsW (by decide) (by decide)⟩

end Galaga
